import Mathlib

/-!
Verification of the dobot-python serial protocol client.

Shallow embedding of the frame codec (`src/dobot_python/message.py`), the
role dispatch of `Message.parse_params`, and the queue-synchronisation
logic of `Dobot.wait` / `Dobot.close` (`src/dobot_python/dobot.py`,
`src/dobot_python/interface.py`).  Bytes are modelled as `Nat` with
explicit `% 256` where the code wraps; a serial stream is a `List Nat`
of the bytes it will deliver, with `read n` returning at most `n` bytes
(`take`), as pyserial does on timeout.
-/

namespace DobotPython

/-- Frame fields as stored by `Message.__init__` for an incoming frame
(direction IN): `raw_params` holds the raw parameter bytes sliced out of
the wire frame. -/
structure Frame where
  header : List Nat
  length : Nat
  id : Nat
  rw : Bool
  is_queued : Bool
  raw_params : List Nat
deriving Repr, DecidableEq

/-- Outcome of `Message.parse`: a Python `IndexError` (`err`, raised when the
byte sequence is shorter than 5 so one of the subscripts `bytes[2]`,
`bytes[3]`, `bytes[4]` is out of range), Python `None` (`noMsg`, checksum
verification failed), or a parsed `Message` (`msg`). -/
inductive ParseOutcome where
  | err : ParseOutcome
  | noMsg : ParseOutcome
  | msg : Frame → ParseOutcome
deriving Repr, DecidableEq

/-- `Message.calculate_checksum`: the two's complement of the payload sum,
`(256 - sum(payload) % 256) % 256`. -/
def calculate_checksum (payload : List Nat) : Nat :=
  (256 - payload.sum % 256) % 256

/-- `Message.verify_checksum`: true iff `(sum(payload) % 256 + checksum) % 256 == 0`. -/
def verify_checksum (payload : List Nat) (checksum : Nat) : Bool :=
  (payload.sum % 256 + checksum) % 256 == 0

/-- `Message.parse`.  The source subscripts `bytes[2]`, `bytes[3]`, `bytes[4]`,
`bytes[5:-1]` and `bytes[-1]`; on a list of fewer than 5 bytes one of the
non-slice subscripts raises `IndexError` (`err`).  On 5 or more bytes,
`bytes[5:-1]` is `rest.dropLast` and `bytes[-1]` is the last element, which
for a 5-byte input is the control byte itself (`rest.getLastD control`).
The checksum is verified over `[id] + [control] + params`; on failure the
function returns `None` (`noMsg`).  The two leading bytes are taken as the
header without comparison, and the stored length byte is never checked. -/
def parse (message : List Nat) : ParseOutcome :=
  match message with
  | h0 :: h1 :: length :: id :: control :: rest =>
    let rw := control &&& 1 == 1
    let is_queued := (control &&& 2) >>> 1 == 1
    let params := rest.dropLast
    let checksum := rest.getLastD control
    if verify_checksum ([id] ++ [control] ++ params) checksum then
      ParseOutcome.msg ⟨[h0, h1], length, id, rw, is_queued, params⟩
    else
      ParseOutcome.noMsg
  | _ => ParseOutcome.err

/-- `Message.package`: assembles `header + [length] + [id] + [control] +
raw_params + [checksum]` where `length = 2 + len(raw_params)`, the control
byte is built from the bit string `"000000" + is_queued + rw` (that is,
`2 * is_queued + rw`), and the checksum covers `[id] + [control] + raw_params`. -/
def package (header : List Nat) (id : Nat) (rw is_queued : Bool)
    (raw_params : List Nat) : List Nat :=
  let length := 2 + raw_params.length
  let control := 2 * (if is_queued then 1 else 0) + (if rw then 1 else 0)
  let checksum := calculate_checksum ([id] ++ [control] ++ raw_params)
  header ++ [length] ++ [id] ++ [control] ++ raw_params ++ [checksum]

/-- `int.from_bytes(bs, "little")`: on the empty byte string it is `0`. -/
def int_from_bytes_le (bs : List Nat) : Nat :=
  bs.foldr (fun b acc => b + 256 * acc) 0

/-- `Message.read`: reads 2 header bytes from the serial stream and returns
`None` unless they equal `0xAA 0xAA`; then reads 1 length byte, `length`
payload bytes and 1 checksum byte (each read returning at most the requested
number of bytes, fewer when the stream runs out, as pyserial does on
timeout), reassembles `header + bytes([length]) + payload + checksum` and
hands it to `Message.parse`. -/
def read (serial : List Nat) : ParseOutcome :=
  let header := serial.take 2
  if header = [0xAA, 0xAA] then
    let length := int_from_bytes_le ((serial.drop 2).take 1)
    let payload := ((serial.drop 2).drop 1).take length
    let checksum := (((serial.drop 2).drop 1).drop length).take 1
    parse (header ++ [length] ++ payload ++ checksum)
  else
    ParseOutcome.noMsg

/-- C4: Checksum self-verification identity: for every byte sequence
`payload`, `verify_checksum payload (calculate_checksum payload)` returns
true, with `calculate_checksum payload = (256 - sum payload % 256) % 256`
and `verify_checksum payload c` true iff `(sum payload % 256 + c) % 256 = 0`. -/
theorem checksum_self_verification (payload : List Nat) :
    verify_checksum payload (calculate_checksum payload) = true := by
  unfold verify_checksum calculate_checksum
  simp only [beq_iff_eq]
  omega

/-- C1: Frame round-trip: for every command id in `0..255`, control bits
`rw`, `is_queued` and byte-valued parameter list that fits the one-byte
length field, parsing the bytes produced by `package` yields a `Message`
with the same command id, the same `rw` and `is_queued` bits and exactly
the same parameter byte sequence. -/
theorem frame_roundtrip (id : Nat) (rw is_queued : Bool) (params : List Nat)
    (hid : id ≤ 255) (hbytes : ∀ p ∈ params, p ≤ 255)
    (hfit : params.length ≤ 253) :
    parse (package [0xAA, 0xAA] id rw is_queued params) =
      ParseOutcome.msg
        ⟨[0xAA, 0xAA], 2 + params.length, id, rw, is_queued, params⟩ := by
  have hverify :
      verify_checksum
        ([id] ++ [2 * (if is_queued then 1 else 0) + (if rw then 1 else 0)] ++ params)
        (calculate_checksum
          ([id] ++ [2 * (if is_queued then 1 else 0) + (if rw then 1 else 0)] ++ params)) =
        true :=
    checksum_self_verification _
  cases rw <;> cases is_queued <;>
    simp only [package, parse, List.cons_append, List.nil_append,
      List.dropLast_concat, List.getLastD_concat, hverify, if_true] <;>
    simp_all <;> decide

/-- Closed instance of the round-trip theorem at a concrete frame. -/
theorem frame_roundtrip_witness :
    parse (package [0xAA, 0xAA] 84 true true [1, 175, 0, 35]) =
      ParseOutcome.msg ⟨[0xAA, 0xAA], 6, 84, true, true, [1, 175, 0, 35]⟩ :=
  frame_roundtrip 84 true true [1, 175, 0, 35] (by decide) (by decide) (by decide)

/-- C9: `parse` validates only the checksum over `[id] + [control] + params`:
any list of at least 5 bytes whose checksum relation holds parses to a
`Message`, whatever its two leading header bytes and its stored length
byte are. -/
theorem parse_ignores_header_and_length (h0 h1 l id c : Nat) (rest : List Nat)
    (hck : verify_checksum ([id] ++ [c] ++ rest.dropLast) (rest.getLastD c) = true) :
    parse (h0 :: h1 :: l :: id :: c :: rest) =
      ParseOutcome.msg
        ⟨[h0, h1], l, id, c &&& 1 == 1, (c &&& 2) >>> 1 == 1, rest.dropLast⟩ := by
  simp only [List.cons_append, List.nil_append, List.getLastD_eq_getLast?] at hck
  simp [parse, hck]

/-- Closed instance: header `[0, 1]` differs from `0xAA 0xAA` and the length
byte `9` is inconsistent with the empty parameter list, yet `parse` returns
a `Message`. -/
theorem parse_ignores_header_and_length_witness :
    parse [0, 1, 9, 7, 1, 248] =
      ParseOutcome.msg ⟨[0, 1], 9, 7, true, false, []⟩ :=
  parse_ignores_header_and_length 0 1 9 7 1 [248] (by decide)

/-- C3 (amended): a bad magic header surfaces as `None`; when the stream
holds the full announced frame (length byte plus that many payload bytes
plus the checksum byte), `read` is `parse` of exactly those bytes, and a
frame of at least 5 bytes failing checksum verification parses to `None`.
Truncated reads are NOT always surfaced as `None` (see the counterexample). -/
theorem frame_failures_surfaced :
    (∀ serial : List Nat, serial.take 2 ≠ [0xAA, 0xAA] →
      read serial = ParseOutcome.noMsg) ∧
    (∀ serial : List Nat, serial.take 2 = [0xAA, 0xAA] →
      4 + serial.getD 2 0 ≤ serial.length →
      read serial = parse (serial.take (4 + serial.getD 2 0))) ∧
    (∀ (h0 h1 l id c : Nat) (rest : List Nat),
      verify_checksum ([id] ++ [c] ++ rest.dropLast) (rest.getLastD c) = false →
      parse (h0 :: h1 :: l :: id :: c :: rest) = ParseOutcome.noMsg) := by
  refine ⟨?_, ?_, ?_⟩
  · intro serial h
    simp [read, h]
  · intro serial hmagic hlen
    match serial, hmagic with
    | a :: b :: t2, hmagic =>
      simp only [List.take, List.cons.injEq] at hmagic
      obtain ⟨rfl, rfl, -⟩ := hmagic
      match t2 with
      | [] => simp at hlen
      | L :: s3 =>
        simp only [List.getD_cons_succ, List.getD_cons_zero, List.length_cons] at hlen ⊢
        have hs3 : L + 1 ≤ s3.length := by omega
        have htake : s3.take (L + 1) = s3.take L ++ (s3.drop L).take 1 :=
          List.take_add s3 L 1
        rw [show 4 + L = L + 1 + 1 + 1 + 1 by omega]
        simp [read, int_from_bytes_le, List.take_succ_cons, htake]
  · intro h0 h1 l id c rest hck
    simp only [List.cons_append, List.nil_append, List.getLastD_eq_getLast?] at hck
    simp [parse, hck]

/-- Closed instance of the amended C3 theorem: a stream whose first two
bytes are not the magic header surfaces as `None`. -/
theorem frame_failures_surfaced_witness :
    read [1, 2, 3] = ParseOutcome.noMsg :=
  frame_failures_surfaced.1 [1, 2, 3] (by decide)

/-- Counterexample to C3 as stated: the stream announces a 5-byte body but
only 3 more bytes are available; the truncated reassembled frame happens to
verify (its last byte `0xFD` balances `id + control = 3`), so `read`
returns a `Message`, not `None`.  A stream that ends right after the magic
header reassembles to 3 bytes and raises `IndexError` inside `parse`. -/
theorem truncated_read_counterexample :
    read [0xAA, 0xAA, 5, 1, 2, 0xFD] =
      ParseOutcome.msg ⟨[0xAA, 0xAA], 5, 1, false, true, []⟩ ∧
    ([0xAA, 0xAA, 5, 1, 2, 0xFD].drop 3).length < 5 ∧
    read [0xAA, 0xAA] = ParseOutcome.err := by
  decide

/-- Replaces the last byte of `b` by the same byte with bit `k` flipped
(`xor` with `2 ^ k`). -/
def corrupt_last_bit (b : List Nat) (k : Nat) : List Nat :=
  b.dropLast ++ [b.getLastD 0 ^^^ 2 ^ k]

lemma bitflip_breaks_checksum (s ck k : Nat) (hck : ck ≤ 255) (hk : k < 8)
    (h : (s % 256 + ck) % 256 = 0)
    (h2 : (s % 256 + (ck ^^^ 2 ^ k)) % 256 = 0) : False := by
  have hpow : (2 : Nat) ^ k < 2 ^ 8 := Nat.pow_lt_pow_right one_lt_two hk
  have hlt : ck ^^^ 2 ^ k < 2 ^ 8 :=
    Nat.xor_lt_two_pow (by omega) hpow
  have hne : ck ^^^ 2 ^ k ≠ ck := by
    intro heq
    have h0 : ck ^^^ (ck ^^^ 2 ^ k) = ck ^^^ ck := by rw [heq]
    rw [Nat.xor_cancel_left, Nat.xor_self] at h0
    exact absurd h0 (Nat.pos_iff_ne_zero.mp (Nat.pos_pow_of_pos k (by omega)))
  have hmod : s % 256 < 256 := Nat.mod_lt _ (by omega)
  omega

/-- C8 (amended): for every frame of at least 6 bytes (so with a genuine
trailing checksum byte, distinct from the control byte) whose trailing byte
is byte-valued, if the frame parses to a `Message` then flipping any single
bit of the trailing checksum byte makes `parse` reject it with `None`. -/
theorem checksum_bitflip_rejected (h0 h1 l id c : Nat) (rest : List Nat)
    (f : Frame) (k : Nat) (hk : k < 8) (hbyte : rest.getLastD 0 ≤ 255)
    (hmsg : parse (h0 :: h1 :: l :: id :: c :: rest) = ParseOutcome.msg f)
    (hne : rest ≠ []) :
    parse (corrupt_last_bit (h0 :: h1 :: l :: id :: c :: rest) k) =
      ParseOutcome.noMsg := by
  obtain ⟨ps, ck, rfl⟩ : ∃ ps ck, rest = ps ++ [ck] := by
    rcases List.eq_nil_or_concat rest with h | ⟨ps, ck, h⟩
    · exact absurd h hne
    · exact ⟨ps, ck, by simpa using h⟩
  have hckbyte : ck ≤ 255 := by
    rwa [List.getLastD_concat] at hbyte
  have hver : verify_checksum (id :: c :: ps) ck = true := by
    by_cases hv : verify_checksum (id :: c :: ps) ck = true
    · exact hv
    · simp [parse, List.dropLast_concat, List.getLastD_concat, hv] at hmsg
  have hbig : h0 :: h1 :: l :: id :: c :: (ps ++ [ck]) =
      (h0 :: h1 :: l :: id :: c :: ps) ++ [ck] := by simp
  have hcor : corrupt_last_bit (h0 :: h1 :: l :: id :: c :: (ps ++ [ck])) k =
      h0 :: h1 :: l :: id :: c :: (ps ++ [ck ^^^ 2 ^ k]) := by
    rw [corrupt_last_bit, hbig, List.dropLast_concat, List.getLastD_concat]
    simp
  have hver' : verify_checksum (id :: c :: ps) (ck ^^^ 2 ^ k) = false := by
    simp only [verify_checksum, beq_iff_eq] at hver
    simp only [verify_checksum, beq_eq_false_iff_ne]
    intro h2
    exact bitflip_breaks_checksum _ ck k hckbyte hk hver h2
  rw [hcor]
  simp [parse, List.dropLast_concat, List.getLastD_concat, hver']

/-- Closed instance of the amended C8 theorem: a well-formed 7-byte frame
with its checksum byte's lowest bit flipped is rejected. -/
theorem checksum_bitflip_rejected_witness :
    parse (corrupt_last_bit [170, 170, 4, 10, 3, 100, 143] 0) =
      ParseOutcome.noMsg :=
  checksum_bitflip_rejected 170 170 4 10 3 [100, 143]
    ⟨[170, 170], 4, 10, true, true, [100]⟩ 0 (by decide) (by decide)
    (by decide) (by decide)

/-- Counterexample to C8 as stated: the 5-byte sequence
`[170, 170, 2, 0, 128]` parses to a `Message` (`parse` aliases the control
byte `128` as the checksum), and flipping bit 7 of its trailing byte yields
`[170, 170, 2, 0, 0]`, which still parses to a `Message` instead of being
rejected. -/
theorem checksum_bitflip_counterexample :
    parse [170, 170, 2, 0, 128] =
      ParseOutcome.msg ⟨[170, 170], 2, 0, false, false, []⟩ ∧
    corrupt_last_bit [170, 170, 2, 0, 128] 7 = [170, 170, 2, 0, 0] ∧
    parse [170, 170, 2, 0, 0] =
      ParseOutcome.msg ⟨[170, 170], 2, 0, false, false, []⟩ := by
  decide

/-- Result of `Message.parse_params` for an incoming frame: the Python
value `None` (`pynone`, returned when the command's table entry is `None`),
the empty list `[]` (`pyempty`, returned when no codec is selected for the
role), or the value produced by the selected codec (`pyval`). -/
inductive ParamResult (V : Type) where
  | pynone : ParamResult V
  | pyempty : ParamResult V
  | pyval : V → ParamResult V
deriving DecidableEq

/-- Modelled from the spec: a command's entry in the `parsers` table of
`src/dobot_python/parsers.py`, which is imported by `message.py` but absent
from the sources; per the spec it is a tuple of up to four role codecs,
indexed 0 = Read response, 1 = ImmediateWrite response, 2 = QueuedWrite
response, 3 = outgoing encode, each possibly unregistered. -/
structure MessageParsers (V : Type) where
  readCodec : Option (List Nat → V)
  immediateWriteCodec : Option (List Nat → V)
  queuedWriteCodec : Option (List Nat → V)
  encodeCodec : Option (List Nat → V)

/-- `Message.parse_params` for direction IN, given the table entry for the
frame's command id (`none` models a `None` entry): `rw=0, is_queued=0` and
`rw=1, is_queued=0` select index 0 (Read response), `rw=1, is_queued=1`
selects index 2 (QueuedWrite response); any other combination leaves the
codec unselected and yields the empty result. -/
def parse_params_in {V : Type} (message_parsers : Option (MessageParsers V))
    (rw is_queued : Bool) (raw_params : List Nat) : ParamResult V :=
  match message_parsers with
  | none => ParamResult.pynone
  | some mp =>
    let codec : Option (List Nat → V) :=
      if rw = false ∧ is_queued = false then mp.readCodec
      else if rw = true ∧ is_queued = false then mp.readCodec
      else if rw = true ∧ is_queued = true then mp.queuedWriteCodec
      else none
    match codec with
    | none => ParamResult.pyempty
    | some p => ParamResult.pyval (p raw_params)

/-- C2 (amended): for a command whose table entry registers a Read-response
codec and a QueuedWrite-response codec, a frame with `rw=0, is_queued=0` is
decoded with the Read-response codec, a frame with `rw=1, is_queued=0` is
also decoded with the Read-response codec, a frame with `rw=1, is_queued=1`
is decoded with the QueuedWrite-response codec, and a frame with `rw=0,
is_queued=1` selects no codec and yields the empty result. -/
theorem role_dispatch (V : Type) (mp : MessageParsers V)
    (r qc : List Nat → V) (raw : List Nat)
    (hr : mp.readCodec = some r) (hq : mp.queuedWriteCodec = some qc) :
    parse_params_in (some mp) false false raw = ParamResult.pyval (r raw) ∧
    parse_params_in (some mp) true false raw = ParamResult.pyval (r raw) ∧
    parse_params_in (some mp) true true raw = ParamResult.pyval (qc raw) ∧
    parse_params_in (some mp) false true raw = ParamResult.pyempty := by
  refine ⟨?_, ?_, ?_, ?_⟩ <;> simp [parse_params_in, hr, hq]

/-- Sentinel table entry distinguishing the role codecs by the marker they
prepend to the raw bytes. -/
def sentinel_codecs : MessageParsers (List Nat) :=
  ⟨some (fun l => 0 :: l), some (fun l => 7 :: l), some (fun l => 1 :: l),
    some (fun l => 3 :: l)⟩

/-- Closed instance of the amended C2 theorem on the sentinel codecs. -/
theorem role_dispatch_witness :
    parse_params_in (some sentinel_codecs) false false [5] =
      ParamResult.pyval [0, 5] ∧
    parse_params_in (some sentinel_codecs) true false [5] =
      ParamResult.pyval [0, 5] ∧
    parse_params_in (some sentinel_codecs) true true [5] =
      ParamResult.pyval [1, 5] ∧
    parse_params_in (some sentinel_codecs) false true [5] =
      ParamResult.pyempty :=
  role_dispatch (List Nat) sentinel_codecs (fun l => 0 :: l) (fun l => 1 :: l)
    [5] rfl rfl

/-- Counterexample to C2 as stated: the sentinel table registers a
Read-response codec (which would yield `pyval [0, 5]` on raw bytes `[5]`),
yet a frame with `rw=0, is_queued=1` is not decoded with it — dispatch
selects no codec and returns the empty result. -/
theorem role_dispatch_counterexample :
    parse_params_in (some sentinel_codecs) false true [5] =
      ParamResult.pyempty ∧
    parse_params_in (some sentinel_codecs) false true [5] ≠
      ParamResult.pyval [0, 5] := by
  exact ⟨rfl, by decide⟩

/-- Abstract device seen through the `Interface`: `enqueue_wait ms` is the
effect on the device of `Interface.wait(ms)` (command 110 sent as a queued
write, appending a wait instruction of `ms` milliseconds to the onboard
queue), and `get_index` is `Interface.get_current_queue_index()` (command
246), returning the reported index (`none` when the exchange yields no
valid frame) together with the successor device state. -/
structure DevModel (D : Type) where
  enqueue_wait : Nat → D → D
  get_index : D → Option Nat × D

/-- Interface operations performed by `Dobot.wait` before its poll loop. -/
inductive IfaceOp where
  | opEnqueueWait : Nat → IfaceOp
  | opGetIndex : IfaceOp
deriving Repr, DecidableEq

/-- The pre-loop part of `Dobot.wait` (dobot.py): first
`self.interface.wait(0)`, then, only when `queue_index` is `None`,
`queue_index = self.interface.get_current_queue_index()`.  Returns the
trace of interface operations in execution order, the target index the
poll loop will use, and the resulting device state. -/
def dobot_wait_target {D : Type} (M : DevModel D) (queue_index : Option Nat)
    (d : D) : List IfaceOp × Option Nat × D :=
  let d1 := M.enqueue_wait 0 d
  match queue_index with
  | some q => ([IfaceOp.opEnqueueWait 0], some q, d1)
  | none =>
    let rd := M.get_index d1
    ([IfaceOp.opEnqueueWait 0, IfaceOp.opGetIndex], rd.1, rd.2)

/-- The wire request built by `Interface.wait(ms)`: command 110, a queued
write (`rw=1, is_queued=1`) carrying `[ms]`. -/
def interface_wait_request (ms : Nat) : List Nat :=
  package [0xAA, 0xAA] 110 true true [ms]

/-- C5 (amended): a default-target `Dobot.wait` first enqueues the
zero-duration wait no-op (command 110 as a queued write with parameter 0)
and only then queries the current queue index, so the target defaults to
the index the device reports immediately AFTER the no-op is appended to
the queue. -/
theorem wait_default_target {D : Type} (M : DevModel D) (d : D) :
    (dobot_wait_target M none d).1 =
      [IfaceOp.opEnqueueWait 0, IfaceOp.opGetIndex] ∧
    (dobot_wait_target M none d).2.1 =
      (M.get_index (M.enqueue_wait 0 d)).1 ∧
    interface_wait_request 0 = [0xAA, 0xAA, 3, 110, 3, 0, 143] := by
  refine ⟨rfl, rfl, by decide⟩

/-- Device on which appending the no-op immediately advances the reported
index (the queue was idle, so the freshly enqueued wait instruction starts
executing at once). -/
def bump_device : DevModel Nat :=
  ⟨fun _ n => n + 1, fun n => (some n, n)⟩

/-- Counterexample to C5 as stated: on `bump_device` in state 5 the index
reported immediately before the no-op is appended is 5, but the default
target computed by `Dobot.wait` is 6 — the query happens after the no-op
is enqueued, not before. -/
theorem wait_default_target_counterexample :
    (bump_device.get_index 5).1 = some 5 ∧
    (dobot_wait_target bump_device none 5).2.1 = some 6 ∧
    (dobot_wait_target bump_device none 5).2.1 ≠ (bump_device.get_index 5).1 := by
  decide

/-- Events of the `Dobot.wait` poll loop: a query of the current queue
index with the value it returned, and a `sleep(0.5)` recorded in tenths of
the time unit. -/
inductive WaitEv where
  | evPoll : Option Nat → WaitEv
  | evSleepTenths : Nat → WaitEv
deriving Repr, DecidableEq

/-- The poll loop of `Dobot.wait` (dobot.py): `while True:` query the
current index; break when the reading is not `None` and strictly greater
than `target`; otherwise `sleep(0.5)` and retry.  `fuel` bounds the number
of iterations modelled; result `none` means the loop is still running
after `fuel` iterations.  Returns the event trace and, on exit, the device
state. -/
def dobot_wait_loop {D : Type} (M : DevModel D) (target : Nat) :
    Nat → D → List WaitEv × Option D
  | 0, _ => ([], none)
  | fuel + 1, d =>
    match M.get_index d with
    | (some index, d2) =>
      if target < index then ([WaitEv.evPoll (some index)], some d2)
      else
        let r := dobot_wait_loop M target fuel d2
        (WaitEv.evPoll (some index) :: WaitEv.evSleepTenths 5 :: r.1, r.2)
    | (none, d2) =>
      let r := dobot_wait_loop M target fuel d2
      (WaitEv.evPoll none :: WaitEv.evSleepTenths 5 :: r.1, r.2)

/-- Trace of a run of failed polls: each reading is followed by exactly one
sleep of 5 tenths (0.5). -/
def failed_polls (rs : List (Option Nat)) : List WaitEv :=
  rs.flatMap (fun r => [WaitEv.evPoll r, WaitEv.evSleepTenths 5])

lemma wait_loop_success_shape {D : Type} (M : DevModel D) (target : Nat) :
    ∀ (fuel : Nat) (d : D) (tr : List WaitEv) (d1 : D),
      dobot_wait_loop M target fuel d = (tr, some d1) →
      ∃ rs i, tr = failed_polls rs ++ [WaitEv.evPoll (some i)] ∧
        target < i ∧ ∀ r ∈ rs, ∀ j, r = some j → j ≤ target := by
  intro fuel
  induction fuel with
  | zero => intro d tr d1 h; simp [dobot_wait_loop] at h
  | succ fuel ih =>
    intro d tr d1 h
    rw [dobot_wait_loop] at h
    rcases hgi : M.get_index d with ⟨r, d2⟩
    rw [hgi] at h
    rcases r with - | index
    · simp only at h
      rcases hrec : dobot_wait_loop M target fuel d2 with ⟨tr2, res2⟩
      rw [hrec] at h
      obtain ⟨rfl, hres⟩ : WaitEv.evPoll none :: WaitEv.evSleepTenths 5 :: tr2 = tr
          ∧ res2 = some d1 := by
        constructor <;> [exact congrArg Prod.fst h; exact congrArg Prod.snd h]
      obtain ⟨rs, i, hshape, hi, hrs⟩ := ih d2 tr2 d1 (by rw [hrec, hres])
      refine ⟨none :: rs, i, ?_, hi, ?_⟩
      · simp [failed_polls, hshape, List.flatMap_cons]
      · intro r hrm j hj
        rcases List.mem_cons.mp hrm with hr | hr
        · rw [hr] at hj; exact Option.noConfusion hj
        · exact hrs r hr j hj
    · simp only at h
      by_cases hlt : target < index
      · rw [if_pos hlt] at h
        obtain ⟨rfl, -⟩ : [WaitEv.evPoll (some index)] = tr ∧ some d2 = some d1 := by
          constructor <;> [exact congrArg Prod.fst h; exact congrArg Prod.snd h]
        exact ⟨[], index, by simp [failed_polls], hlt, by simp⟩
      · rw [if_neg hlt] at h
        rcases hrec : dobot_wait_loop M target fuel d2 with ⟨tr2, res2⟩
        rw [hrec] at h
        obtain ⟨rfl, hres⟩ :
            WaitEv.evPoll (some index) :: WaitEv.evSleepTenths 5 :: tr2 = tr
              ∧ res2 = some d1 := by
          constructor <;> [exact congrArg Prod.fst h; exact congrArg Prod.snd h]
        obtain ⟨rs, i, hshape, hi, hrs⟩ := ih d2 tr2 d1 (by rw [hrec, hres])
        refine ⟨some index :: rs, i, ?_, hi, ?_⟩
        · simp [failed_polls, hshape, List.flatMap_cons]
        · intro r hrm j hj
          rcases List.mem_cons.mp hrm with hr | hr
          · rw [hr] at hj
            injection hj with hj2
            omega
          · exact hrs r hr j hj

lemma wait_loop_stuck {D : Type} (M : DevModel D) (target : Nat)
    (hcap : ∀ (d : D) (i : Nat), (M.get_index d).1 = some i → i ≤ target) :
    ∀ (fuel : Nat) (d : D), (dobot_wait_loop M target fuel d).2 = none := by
  intro fuel
  induction fuel with
  | zero => intro d; simp [dobot_wait_loop]
  | succ fuel ih =>
    intro d
    rw [dobot_wait_loop]
    rcases hgi : M.get_index d with ⟨r, d2⟩
    rcases r with - | index
    · simp [hgi, ih d2]
    · have hle : ¬ target < index := by
        have := hcap d index (by rw [hgi])
        omega
      simp [hgi, hle, ih d2]

/-- A device that ignores enqueues and answers the `k`-th index query from
the stream `f`, counting queries in its state. -/
def stream_device (f : Nat → Option Nat) : DevModel Nat :=
  ⟨fun _ n => n, fun n => (f n, n + 1)⟩

lemma wait_loop_reaches (f : Nat → Option Nat) (target : Nat) :
    ∀ (fuel j k i : Nat), j ≤ k → k < j + fuel → f k = some i → target < i →
      (dobot_wait_loop (stream_device f) target fuel j).2 ≠ none := by
  intro fuel
  induction fuel with
  | zero => intro j k i hjk hlt; omega
  | succ fuel ih =>
    intro j k i hjk hlt hk hi
    rw [dobot_wait_loop]
    rcases hfj : f j with - | v
    · have hgi : (stream_device f).get_index j = (none, j + 1) := by
        simp [stream_device, hfj]
      have hne : j ≠ k := by
        intro he; rw [he, hk] at hfj; exact Option.noConfusion hfj
      simp only [hgi]
      simpa using ih (j + 1) k i (by omega) (by omega) hk hi
    · have hgi : (stream_device f).get_index j = (some v, j + 1) := by
        simp [stream_device, hfj]
      by_cases hv : target < v
      · simp [hgi, hv]
      · have hne : j ≠ k := by
          intro he; rw [he, hk] at hfj
          injection hfj with hiv
          omega
        simp only [hgi, if_neg hv]
        simpa using ih (j + 1) k i (by omega) (by omega) hk hi

/-- C6: the poll loop of `Dobot.wait` exits only after a query returns an
index strictly greater than the target, every unsuccessful query (smaller
or equal index, or no reading) is followed by exactly one fixed sleep of
0.5 (5 tenths) before the retry, a device whose readings never exceed the
target keeps the loop running whatever the iteration bound (no maximum
retry count), and once the device reports an index past the target the
loop does return. -/
theorem wait_poll_loop :
    (∀ (D : Type) (M : DevModel D) (target fuel : Nat) (d : D)
        (tr : List WaitEv) (d1 : D),
      dobot_wait_loop M target fuel d = (tr, some d1) →
      ∃ rs i, tr = failed_polls rs ++ [WaitEv.evPoll (some i)] ∧
        target < i ∧ ∀ r ∈ rs, ∀ j, r = some j → j ≤ target) ∧
    (∀ (D : Type) (M : DevModel D) (target : Nat),
      (∀ (d : D) (i : Nat), (M.get_index d).1 = some i → i ≤ target) →
      ∀ (fuel : Nat) (d : D), (dobot_wait_loop M target fuel d).2 = none) ∧
    (∀ (f : Nat → Option Nat) (target fuel j k i : Nat),
      j ≤ k → k < j + fuel → f k = some i → target < i →
      (dobot_wait_loop (stream_device f) target fuel j).2 ≠ none) :=
  ⟨fun _ M target fuel d tr d1 h =>
      wait_loop_success_shape M target fuel d tr d1 h,
    fun _ M target hcap fuel d => wait_loop_stuck M target hcap fuel d,
    fun f target fuel j k i h1 h2 h3 h4 =>
      wait_loop_reaches f target fuel j k i h1 h2 h3 h4⟩

/-- Closed instance of C6: a device stuck reporting index 5 keeps the loop
running for any bound, and one reporting 7 lets a wait on target 5 return. -/
theorem wait_poll_loop_witness :
    (dobot_wait_loop (stream_device (fun _ => some 5)) 5 1000 0).2 = none ∧
    (dobot_wait_loop (stream_device (fun _ => some 7)) 5 1 0).2 ≠ none :=
  ⟨wait_poll_loop.2.1 Nat (stream_device (fun _ => some 5)) 5
      (fun d i h => by simp [stream_device] at h; omega) 1000 0,
    wait_poll_loop.2.2 (fun _ => some 7) 5 1 0 0 7 (Nat.le_refl 0)
      (by omega) rfl (by omega)⟩

/-- C10: a `None` reading from `get_current_queue_index` does not make the
poll loop raise or return: the loop records the failed poll, sleeps the
fixed 0.5 and polls again with the rest of its budget; and the loop can
only return after a non-`None` reading strictly greater than the target. -/
theorem wait_none_reading :
    (∀ (D : Type) (M : DevModel D) (target fuel : Nat) (d : D),
      (M.get_index d).1 = none →
      dobot_wait_loop M target (fuel + 1) d =
        (WaitEv.evPoll none :: WaitEv.evSleepTenths 5 ::
            (dobot_wait_loop M target fuel (M.get_index d).2).1,
          (dobot_wait_loop M target fuel (M.get_index d).2).2)) ∧
    (∀ (D : Type) (M : DevModel D) (target fuel : Nat) (d : D)
        (tr : List WaitEv) (d1 : D),
      dobot_wait_loop M target fuel d = (tr, some d1) →
      ∃ i, tr.getLast? = some (WaitEv.evPoll (some i)) ∧ target < i) := by
  constructor
  · intro D M target fuel d h
    rw [dobot_wait_loop]
    rcases hgi : M.get_index d with ⟨r, d2⟩
    rw [hgi] at h
    simp only at h
    subst h
    simp [hgi]
  · intro D M target fuel d tr d1 h
    obtain ⟨rs, i, hshape, hi, -⟩ :=
      wait_loop_success_shape M target fuel d tr d1 h
    exact ⟨i, by simp [hshape], hi⟩

/-- Closed instance of C10: with a device that never answers, one loop
iteration polls, sleeps 0.5 and leaves the loop still running. -/
theorem wait_none_reading_witness :
    dobot_wait_loop (stream_device (fun _ => none)) 5 1 0 =
      ([WaitEv.evPoll none, WaitEv.evSleepTenths 5], none) := by
  have h := wait_none_reading.1 Nat (stream_device (fun _ => none)) 5 0 0 rfl
  simpa [dobot_wait_loop, stream_device] using h

/-- Operations performed while closing a connection, in execution order:
`opDrainQueue` is the `Dobot.wait()` drain, `opStopQueue` sends command 242
when forced and 241 otherwise, `opClearQueue` sends command 245, and
`opCloseSerial` releases the underlying transport. -/
inductive CloseOp where
  | opDrainQueue : CloseOp
  | opStopQueue : Bool → CloseOp
  | opClearQueue : CloseOp
  | opCloseSerial : CloseOp
deriving Repr, DecidableEq

/-- `Interface.close(force)` (interface.py): `stop_queue(force)`, then
`clear_queue()`, then `serial.close()`. -/
def interface_close (force : Bool) : List CloseOp :=
  [CloseOp.opStopQueue force, CloseOp.opClearQueue, CloseOp.opCloseSerial]

/-- `Dobot.close(force_close)` (dobot.py): unless forced, first
`self.wait()` (drain the instruction queue), then
`self.interface.close(force=force_close)`. -/
def dobot_close (force_close : Bool) : List CloseOp :=
  (if force_close then [] else [CloseOp.opDrainQueue]) ++ interface_close force_close

/-- C7: non-forced close drains the queue, then stops it (command 241),
clears it and releases the transport, in that order; forced close skips
the drain and immediately stops (force variant, command 242), clears and
releases. -/
theorem close_order :
    dobot_close false =
      [CloseOp.opDrainQueue, CloseOp.opStopQueue false, CloseOp.opClearQueue,
        CloseOp.opCloseSerial] ∧
    dobot_close true =
      [CloseOp.opStopQueue true, CloseOp.opClearQueue, CloseOp.opCloseSerial] := by
  decide

end DobotPython
